import Mathlib

/-!
Verification development for the channel-collector repository.

The Python sources are shallowly embedded as Lean definitions:

* `collector/resolver.py` and `collector/youtube_client.py` — the resolver
  state machine and the plain YouTube client (channel-id extraction,
  user/handle lookup with total error absorption);
* `collector/yt_client.py` — the asynchronous key rotator
  (`YouTubeClientRotator`: `_get_key`, `_cooldown_key`, `safe_execute`);
* `collector/yt/safe_execute.py` — the synchronous retry pipeline;
* `collector/orchestrator.py`, `collector/tasks.py`, `collector/state.py`,
  `collector/models.py` — Run/Job state model, `start_run`, `finalize_run`
  and the Celery worker `process_channel_job`.

Strings are modelled as `List Char`; timestamps as `ℕ`; float backoffs as
`ℚ` (the Python code only ever produces exact values 1.0, 2.0, 4.0, ...).
Quote punctuation inside Python log/reason messages is elided; no claim
depends on the exact wording of a message, only on messages being equal or
distinct between code paths.
-/

/-- Python whitespace characters, as used by `str.strip()` for ASCII input. -/
def pySpace (c : Char) : Bool :=
  c = ' ' ∨ c = '\t' ∨ c = '\n' ∨ c = '\r' ∨ c = Char.ofNat 11 ∨ c = Char.ofNat 12

/-- `str.strip()`: drop whitespace from both ends. -/
def pyStrip (l : List Char) : List Char :=
  ((l.dropWhile pySpace).reverse.dropWhile pySpace).reverse

/-- Character class `[A-Za-z0-9_-]` of the channel-id / user-name regexes. -/
def idClass (c : Char) : Bool :=
  ('A' ≤ c ∧ c ≤ 'Z') ∨ ('a' ≤ c ∧ c ≤ 'z') ∨ ('0' ≤ c ∧ c ≤ '9') ∨ c = '_' ∨ c = '-'

/-- Character class `[A-Za-z0-9_.-]` of the handle regexes. -/
def handleClass (c : Char) : Bool :=
  idClass c ∨ c = '.'

/-- Try to match `UC[A-Za-z0-9_-]{22}` at the head of the list
(`RE_CHANNEL_ID` of `collector/resolver.py` at one position). -/
def chanIdAt : List Char → Option (List Char)
  | 'U' :: 'C' :: rest =>
    if (rest.take 22).length = 22 ∧ (rest.take 22).all idClass = true then
      some ('U' :: 'C' :: rest.take 22)
    else none
  | _ => none

/-- `RE_CHANNEL_ID.search`: leftmost match of `UC[A-Za-z0-9_-]{22}`. -/
def findChanId : List Char → Option (List Char)
  | [] => none
  | c :: rest =>
    match chanIdAt (c :: rest) with
    | some m => some m
    | none => findChanId rest

/-- Match `/user/<name>` at the head of the list (`RE_USER` at one position);
returns the captured `<name>`, a maximal nonempty run of `[A-Za-z0-9_-]`. -/
def userAt : List Char → Option (List Char)
  | '/' :: 'u' :: 's' :: 'e' :: 'r' :: '/' :: rest =>
    let name := rest.takeWhile idClass
    if name = [] then none else some name
  | _ => none

/-- `RE_USER.search`: leftmost match of `/(?:user)/([A-Za-z0-9_-]+)`. -/
def findUser : List Char → Option (List Char)
  | [] => none
  | c :: rest =>
    match userAt (c :: rest) with
    | some m => some m
    | none => findUser rest

/-- Match `/@<handle>` at the head of the list (`RE_HANDLE` at one position);
the capture group includes the `@`. -/
def handleAt : List Char → Option (List Char)
  | '/' :: '@' :: rest =>
    let body := rest.takeWhile handleClass
    if body = [] then none else some ('@' :: body)
  | _ => none

/-- `RE_HANDLE.search` of `collector/resolver.py`: leftmost match of
`/(@[A-Za-z0-9_.-]+)`. -/
def findHandle : List Char → Option (List Char)
  | [] => none
  | c :: rest =>
    match handleAt (c :: rest) with
    | some m => some m
    | none => findHandle rest

/-- Match `/c/<name>` at the head of the list (`RE_CUSTOM_URL` at one position). -/
def customAt : List Char → Option (List Char)
  | '/' :: 'c' :: '/' :: rest =>
    let name := rest.takeWhile idClass
    if name = [] then none else some name
  | _ => none

/-- `RE_CUSTOM_URL.search`: leftmost match of `/(?:c)/([A-Za-z0-9_-]+)`. -/
def findCustom : List Char → Option (List Char)
  | [] => none
  | c :: rest =>
    match customAt (c :: rest) with
    | some m => some m
    | none => findCustom rest

/-- `RE_RAW_HANDLE`: anchored `^(@?[A-Za-z0-9_.-]+)$`; the capture, when the
whole string matches, is the whole string. -/
def rawHandleMatch (l : List Char) : Option (List Char) :=
  match l with
  | [] => none
  | '@' :: body => if body ≠ [] ∧ body.all handleClass then some l else none
  | _ => if l.all handleClass then some l else none

/-- Outcome of one raw YouTube Data API invocation, as observed by
`collector/youtube_client.py`: a decoded response whose `items[i]` each carry
an optional `id`, an `HttpError`, or any other Python exception. -/
inductive ApiOutcome where
  | success (items : List (Option (List Char)))
  | httpError (status : ℕ) (body : List Char)
  | pyError (msg : List Char)
deriving DecidableEq

/-- `YouTubeClient.get_channel_id_for_user`: returns `items[0].get("id")` on a
nonempty response and `None` on an empty response, any `HttpError`, or any
other exception (`collector/youtube_client.py`, lines 35-59). -/
def get_channel_id_for_user (api : List Char → ApiOutcome) (username : List Char) :
    Option (List Char) :=
  match api username with
  | .success items =>
    match items with
    | [] => none
    | i :: _ => i
  | .httpError _ _ => none
  | .pyError _ => none

/-- `if handle.startswith('@'): handle = handle[1:]`. -/
def stripAtSign : List Char → List Char
  | '@' :: rest => rest
  | other => other

/-- `YouTubeClient.get_channel_id_for_handle`: strips a leading `@`, then as
for the user lookup; the 400 status is only logged differently and still
yields `None` (`collector/youtube_client.py`, lines 61-94). -/
def get_channel_id_for_handle (api : List Char → ApiOutcome) (handle : List Char) :
    Option (List Char) :=
  match api (stripAtSign handle) with
  | .success items =>
    match items with
    | [] => none
    | i :: _ => i
  | .httpError _ _ => none
  | .pyError _ => none

/-- The two API endpoints the resolver can reach, as oracles from the query
string to the raw API outcome. -/
structure YtApi where
  user : List Char → ApiOutcome
  handle : List Char → ApiOutcome

inductive ResolveStatus where
  | RESOLVED
  | NEEDS_SEARCH_FALLBACK
  | FAILED
deriving DecidableEq

/-- `collector/resolver.py` `ResolveResult`. -/
structure RResult where
  status : ResolveStatus
  youtube_channel_id : Option (List Char) := none
  input_str : List Char
  reason : Option (List Char) := none
  input_type : Option (List Char) := none
deriving DecidableEq

def reasonUserFail (u : List Char) : List Char :=
  "API call for username ".toList ++ u ++ " failed or returned no result.".toList

def reasonHandleFail (h : List Char) : List Char :=
  "API call for handle ".toList ++ h ++ " failed or returned no result.".toList

def reasonRawHandleFail (h : List Char) : List Char :=
  "API call for raw handle ".toList ++ h ++ " failed or returned no result.".toList

def reasonCustomUrl (n : List Char) : List Char :=
  "Custom URL /c/".toList ++ n ++ " requires a search API call.".toList

def reasonUnrecognized : List Char := "Unrecognized input format.".toList

/-- `collector/resolver.py` `resolve_youtube_channel`, with the API client
abstracted as oracles. The second component counts API calls performed. -/
def resolve_youtube_channel (input : List Char) (client : YtApi) : RResult × ℕ :=
  let s := pyStrip input
  match findChanId s with
  | some cid =>
    ({ status := .RESOLVED, youtube_channel_id := some cid, input_str := s,
       input_type := some "CHANNEL_ID".toList }, 0)
  | none =>
    match findUser s with
    | some username =>
      match get_channel_id_for_user client.user username with
      | some cid =>
        ({ status := .RESOLVED, youtube_channel_id := some cid, input_str := s,
           input_type := some "USER_URL".toList }, 1)
      | none =>
        ({ status := .FAILED, input_str := s, reason := some (reasonUserFail username),
           input_type := some "USER_URL".toList }, 1)
    | none =>
      match findHandle s with
      | some h =>
        match get_channel_id_for_handle client.handle h with
        | some cid =>
          ({ status := .RESOLVED, youtube_channel_id := some cid, input_str := s,
             input_type := some "HANDLE".toList }, 1)
        | none =>
          ({ status := .FAILED, input_str := s, reason := some (reasonHandleFail h),
             input_type := some "HANDLE".toList }, 1)
      | none =>
        match findCustom s with
        | some n =>
          ({ status := .NEEDS_SEARCH_FALLBACK, input_str := s,
             reason := some (reasonCustomUrl n), input_type := some "CUSTOM_URL".toList }, 0)
        | none =>
          match rawHandleMatch s with
          | some tok =>
            if 70 < s.length ∨ ' ' ∈ s then
              ({ status := .FAILED, input_str := s, reason := some reasonUnrecognized,
                 input_type := some "UNKNOWN".toList }, 0)
            else
              match get_channel_id_for_handle client.handle tok with
              | some cid =>
                ({ status := .RESOLVED, youtube_channel_id := some cid, input_str := s,
                   input_type := some "RAW_HANDLE".toList }, 1)
              | none =>
                ({ status := .FAILED, input_str := s,
                   reason := some (reasonRawHandleFail tok),
                   input_type := some "RAW_HANDLE".toList }, 1)
          | none =>
            ({ status := .FAILED, input_str := s, reason := some reasonUnrecognized,
               input_type := some "UNKNOWN".toList }, 0)

/-!
## Key rotator and retry pipeline of `collector/yt_client.py`
(`YouTubeClientRotator`), with time as `ℕ` and the response payload opaque.
-/

/-- Internal state of `YouTubeClientRotator`: the deque `_api_keys` (front
first), the insertion-ordered dict `_cooldown_keys` (key, cooldown end time),
and `_cooldown_time` (constructor default 60 seconds). -/
structure RotState where
  apiKeys : List (List Char)
  cooldownKeys : List (List Char × ℕ)
  cooldownTime : ℕ
deriving DecidableEq

/-- First phase of `_get_key`: re-append every key whose cooldown has expired
(`now >= cooldown_end`) to the deque and drop it from the cooldown dict, in
dict iteration order. -/
def reintegrate (st : RotState) (now : ℕ) : RotState :=
  { st with
    apiKeys := st.apiKeys ++ ((st.cooldownKeys.filter (fun p => p.2 ≤ now)).map Prod.fst)
    cooldownKeys := st.cooldownKeys.filter (fun p => ¬ p.2 ≤ now) }

/-- Second phase of `_get_key`: `for _ in range(len(api_keys))`, look at the
front of the deque, rotate it to the back, and return it if it is not in the
cooldown dict. Returns the key and the rotated deque. -/
def selectKey : ℕ → List (List Char) → List (List Char × ℕ) →
    Option (List Char × List (List Char))
  | 0, _, _ => none
  | _ + 1, [], _ => none
  | n + 1, k :: rest, cds =>
    if cds.any (fun p => p.1 = k) then selectKey n (rest ++ [k]) cds
    else some (k, rest ++ [k])

/-- `YouTubeClientRotator._get_key`: reintegrate expired cooldowns, then
round-robin over the deque; `none` models the `RuntimeError` raised when no
key is available. -/
def getKey (st : RotState) (now : ℕ) : Option (List Char × RotState) :=
  match selectKey (reintegrate st now).apiKeys.length (reintegrate st now).apiKeys
      (reintegrate st now).cooldownKeys with
  | none => none
  | some (k, ks) => some (k, { reintegrate st now with apiKeys := ks })

/-- `YouTubeClientRotator._cooldown_key`: record `cooldown_end = now +
cooldown_time` (dict assignment: update in place if present, else append) and
remove the key from the deque (`list.remove`: first occurrence). -/
def cooldownKey (st : RotState) (key : List Char) (now : ℕ) : RotState :=
  { st with
    cooldownKeys :=
      if st.cooldownKeys.any (fun p => p.1 = key) then
        st.cooldownKeys.map (fun p => if p.1 = key then (key, now + st.cooldownTime) else p)
      else
        st.cooldownKeys ++ [(key, now + st.cooldownTime)]
    apiKeys := st.apiKeys.erase key }

/-- Outcome of one `func` invocation inside `safe_execute` of
`collector/yt_client.py`: success, an `HttpError` with `status_code` and raw
`content`, or any other exception. -/
inductive AOutcome where
  | success (v : ℕ)
  | httpErr (status : ℕ) (content : List Char)
  | exn (msg : List Char)
deriving DecidableEq

/-- `"quotaExceeded" in str(e.content) or "dailyLimitExceeded" in
str(e.content)` — the quota test of `collector/yt_client.py`, line 78.
Note: it is a substring test on the raw content and it does not look for
`userRateLimitExceeded`, nor at the HTTP status. -/
def isQuotaContent (content : List Char) : Bool :=
  decide ("quotaExceeded".toList <:+: content) ∨
  decide ("dailyLimitExceeded".toList <:+: content)

/-- `e.status_code == 429 or e.status_code >= 500` (line 79). -/
def isTransientStatus (status : ℕ) : Bool :=
  status = 429 ∨ 500 ≤ status

inductive AErr where
  | http (status : ℕ) (content : List Char)
  | other (msg : List Char)
deriving DecidableEq

inductive ARes where
  | ok (v : ℕ)
  | raised (e : AErr)
  | noKeys
  | failedNoAttempt
deriving DecidableEq

/-- Trace of one `safe_execute` run of `collector/yt_client.py`: the result,
the sleeps performed (in seconds, `2 ** attempt + jitter`), and the final
rotator state. -/
structure ATrace where
  res : ARes
  sleeps : List ℚ
  rot : RotState
deriving DecidableEq

/-- The `for attempt in range(max_retries)` loop of
`YouTubeClientRotator.safe_execute` (lines 66-106). `remaining` is
`max_retries - attempt`; the attempt index is `5 - remaining` when entered
from `safe_execute` below. `outcomes a` is what the API invocation of attempt
`a` yields; `jitter a` is that attempt's `random.uniform(0, 1)` draw. A quota
error cools the key and continues (consuming the iteration); a transient
error sleeps `2 ** attempt + jitter` and continues; any other `HttpError` is
re-raised at once; a non-`HttpError` exception breaks the loop and is
re-raised after it. `_get_key` failure propagates as `noKeys`. -/
def safeExecuteLoop (outcomes : ℕ → AOutcome) (jitter : ℕ → ℚ) (now : ℕ) :
    ℕ → ℕ → RotState → Option AErr → List ℚ → ATrace
  | 0, _, st, last, sleeps =>
    match last with
    | some e => ⟨.raised e, sleeps, st⟩
    | none => ⟨.failedNoAttempt, sleeps, st⟩
  | r + 1, a, st, _last, sleeps =>
    match getKey st now with
    | none => ⟨.noKeys, sleeps, st⟩
    | some (key, st1) =>
      match outcomes a with
      | .success v => ⟨.ok v, sleeps, st1⟩
      | .httpErr sc content =>
        if isQuotaContent content then
          safeExecuteLoop outcomes jitter now r (a + 1) (cooldownKey st1 key now)
            (some (.http sc content)) sleeps
        else if isTransientStatus sc then
          safeExecuteLoop outcomes jitter now r (a + 1) st1 (some (.http sc content))
            (sleeps ++ [(2 : ℚ) ^ a + jitter a])
        else ⟨.raised (.http sc content), sleeps, st1⟩
      | .exn msg => ⟨.raised (.other msg), sleeps, st1⟩

/-- `YouTubeClientRotator.safe_execute` with `max_retries = 5`. The
per-tenant `throttle` performed before the loop only delays and is not
modelled. -/
def rotator_safe_execute (st : RotState) (outcomes : ℕ → AOutcome) (jitter : ℕ → ℚ)
    (now : ℕ) : ATrace :=
  safeExecuteLoop outcomes jitter now 5 0 st none []

/-!
## Retry pipeline of `collector/yt/safe_execute.py`
(`MAX_RETRIES = 5`, `INITIAL_BACKOFF = 1.0`, `BACKOFF_FACTOR = 2.0`).
-/

/-- Outcome of one `request_func()` call in `collector/yt/safe_execute.py`:
success, an `HttpError` with `resp.status` and `error_details` (a list of
error dicts, each with an optional `reason`), or any other exception (which
that function does not catch). -/
inductive SOutcome where
  | success (v : ℕ)
  | httpErr (status : ℕ) (details : List (Option (List Char)))
  | pyExn (msg : List Char)
deriving DecidableEq

def quotaReasons : List (List Char) :=
  ["quotaExceeded".toList, "dailyLimitExceeded".toList, "userRateLimitExceeded".toList]

/-- `status == 403 and any(err.get("reason") in [...] for err in error_details)`. -/
def isQuotaDetails (status : ℕ) (details : List (Option (List Char))) : Bool :=
  status = 403 ∧ details.any (fun d =>
    match d with
    | some r => r ∈ quotaReasons
    | none => False)

inductive SRes where
  | ok (v : ℕ)
  | raisedQuota (status : ℕ) (details : List (Option (List Char)))
  | raisedFatal (status : ℕ) (details : List (Option (List Char)))
  | raisedExhausted (status : ℕ) (details : List (Option (List Char)))
  | raisedOther (msg : List Char)
  | loopExit
deriving DecidableEq

/-- Trace of one `safe_execute` run of `collector/yt/safe_execute.py`: the
result, the sleeps performed (in seconds, exactly `backoff` — this variant
adds no jitter), and the number of `request_func()` invocations. -/
structure STrace where
  res : SRes
  sleeps : List ℚ
  calls : ℕ
deriving DecidableEq

/-- The `while retries < MAX_RETRIES` loop. `remaining = MAX_RETRIES -
retries`; `k` counts `request_func()` invocations so far; `backoff` doubles
after each transient sleep. A quota 403 re-raises immediately (`raisedQuota`)
for the caller to rotate keys; a 429/5xx increments `retries` and, if the
budget is not yet exhausted, sleeps `backoff` and doubles it; any other
`HttpError` is wrapped into `PotentiallyFatalHttpError` (`raisedFatal`); a
non-`HttpError` exception propagates uncaught (`raisedOther`). `loopExit`
models the final unreachable `raise` after the loop. -/
def sync_safe_execute_loop (outcomes : ℕ → SOutcome) :
    ℕ → ℕ → ℚ → List ℚ → STrace
  | 0, k, _, sleeps => ⟨.loopExit, sleeps, k⟩
  | r + 1, k, backoff, sleeps =>
    match outcomes k with
    | .success v => ⟨.ok v, sleeps, k + 1⟩
    | .httpErr status details =>
      if isQuotaDetails status details then ⟨.raisedQuota status details, sleeps, k + 1⟩
      else if isTransientStatus status then
        if r = 0 then ⟨.raisedExhausted status details, sleeps, k + 1⟩
        else sync_safe_execute_loop outcomes r (k + 1) (backoff * 2) (sleeps ++ [backoff])
      else ⟨.raisedFatal status details, sleeps, k + 1⟩
    | .pyExn msg => ⟨.raisedOther msg, sleeps, k + 1⟩

/-- `safe_execute` of `collector/yt/safe_execute.py`. -/
def sync_safe_execute (outcomes : ℕ → SOutcome) : STrace :=
  sync_safe_execute_loop outcomes 5 0 1 []

/-!
## Run/Job state model and orchestrator
(`collector/models.py`, `collector/state.py`, `collector/orchestrator.py`,
`collector/tasks.py`).
-/

inductive JobStatus where
  | PENDING
  | PROCESSING
  | DONE
  | FAILED
  | NEEDS_SEARCH
deriving DecidableEq

inductive RunStatus where
  | PENDING
  | RUNNING
  | FINISHED
deriving DecidableEq

/-- `collector/models.py` `Job`. -/
structure JobRec where
  id : ℕ
  run_id : ℕ
  input_channel : List Char
  youtube_channel_id : Option (List Char) := none
  status : JobStatus := .PENDING
  attempts : ℕ := 0
  last_error : Option (List Char) := none
  created_at : ℕ
  updated_at : ℕ
deriving DecidableEq

/-- The summary dict computed (and only logged) by
`Orchestrator.finalize_run`; note it has no `needs_search` entry. -/
structure RunSummary where
  total : ℕ
  done : ℕ
  failed : ℕ
  duration_seconds : ℕ
deriving DecidableEq

/-- `collector/models.py` `Run`. -/
structure RunRec where
  id : ℕ
  analysis_id : ℕ
  owner_id : ℕ
  status : RunStatus := .PENDING
  created_at : ℕ
  updated_at : ℕ
  finished_at : Option ℕ := none
  summary : Option RunSummary := none
deriving DecidableEq

/-- `collector/state.py` `InMemoryState`: insertion-ordered dicts id → Run and
id → Job, modelled as association lists. -/
structure StoreState where
  runs : List (ℕ × RunRec)
  jobs : List (ℕ × JobRec)
deriving DecidableEq

def lookupRun (st : StoreState) (rid : ℕ) : Option RunRec :=
  (st.runs.find? (fun p => p.1 = rid)).map Prod.snd

def lookupJob (st : StoreState) (jid : ℕ) : Option JobRec :=
  (st.jobs.find? (fun p => p.1 = jid)).map Prod.snd

/-- `InMemoryState.create_run`: `none` models the `ValueError` raised on a
duplicate id. -/
def createRun (st : StoreState) (r : RunRec) : Option StoreState :=
  if st.runs.any (fun p => p.1 = r.id) then none
  else some { st with runs := st.runs ++ [(r.id, r)] }

/-- `InMemoryState.create_job`: `none` models the `ValueError` raised on a
duplicate id. -/
def createJob (st : StoreState) (j : JobRec) : Option StoreState :=
  if st.jobs.any (fun p => p.1 = j.id) then none
  else some { st with jobs := st.jobs ++ [(j.id, j)] }

/-- `InMemoryState.update_job` (dict assignment at an existing id; the
`ValueError` branch for a missing id is never reached in the flows modelled
here, where the job was just looked up). -/
def updateJob (st : StoreState) (j : JobRec) : StoreState :=
  { st with jobs := st.jobs.map (fun p => if p.1 = j.id then (j.id, j) else p) }

/-- Persisting an in-place mutation of a `Run` object held by the store
(Python aliasing: `finalize_run` mutates the object returned by `get_run`,
which is the stored object itself). -/
def updateRun (st : StoreState) (r : RunRec) : StoreState :=
  { st with runs := st.runs.map (fun p => if p.1 = r.id then (r.id, r) else p) }

/-- `InMemoryState.get_jobs_for_run`: all jobs with this `run_id`, in dict
insertion order. -/
def jobsForRun (st : StoreState) (rid : ℕ) : List JobRec :=
  (st.jobs.map Prod.snd).filter (fun j => j.run_id = rid)

/-- The job-creating loop of `Orchestrator.start_run` (lines 28-38): skip an
input when `not channel_input or not channel_input.strip()`; otherwise
allocate the next job id, create the Job with the verbatim (untrimmed) input
and status PENDING, and enqueue `(job_id, run_id)`. Returns the new store,
the next job-counter value, `jobs_created`, and the enqueued tasks in order;
`none` propagates a `create_job` conflict. -/
def startRunJobs (st : StoreState) (runId : ℕ) (nextJob : ℕ) (now : ℕ) :
    List (List Char) → Option (StoreState × ℕ × ℕ × List (ℕ × ℕ))
  | [] => some (st, nextJob, 0, [])
  | input :: rest =>
    if input = [] ∨ pyStrip input = [] then startRunJobs st runId nextJob now rest
    else
      match createJob st { id := nextJob, run_id := runId, input_channel := input,
                           status := .PENDING, created_at := now, updated_at := now } with
      | none => none
      | some st1 =>
        match startRunJobs st1 runId (nextJob + 1) now rest with
        | none => none
        | some (st2, nj, n, tasks) => some (st2, nj, n + 1, (nextJob, runId) :: tasks)

/-- `Orchestrator.start_run`: allocate `run_id`, create the Run with status
RUNNING, then launch one PENDING Job per input that survives the emptiness
check. No trimming, no deduplication, and no synchronous finalization happen
in the source. Result: store, next job counter, `jobs_created`, enqueued
`(job_id, run_id)` tasks. -/
def start_run (st : StoreState) (nextRun nextJob : ℕ) (analysis owner : ℕ)
    (inputs : List (List Char)) (now : ℕ) :
    Option (StoreState × ℕ × ℕ × List (ℕ × ℕ)) :=
  match createRun st { id := nextRun, analysis_id := analysis, owner_id := owner,
                       status := .RUNNING, created_at := now, updated_at := now } with
  | none => none
  | some st1 => startRunJobs st1 nextRun nextJob now inputs

/-- `Orchestrator.finalize_run` (lines 75-103). Returns the boolean result,
the store after the (aliased) Run mutation, and the summary dict that the
source computes and logs; the source stores neither the summary nor
`finished_at` on the Run — the Run only gets `status = FINISHED` and
`updated_at = now`. Jobs in NEEDS_SEARCH are *not* counted as finished
(`j.status in ["DONE", "FAILED"]`), and a Run with zero jobs is never
finalized (`total_jobs > 0`). -/
def finalize_run (st : StoreState) (rid : ℕ) (now : ℕ) :
    Bool × StoreState × Option RunSummary :=
  match lookupRun st rid with
  | none => (false, st, none)
  | some run =>
    if run.status = .FINISHED then (false, st, none)
    else
      let jobs := jobsForRun st rid
      let total := jobs.length
      let finished := jobs.filter (fun j => j.status = .DONE ∨ j.status = .FAILED)
      if finished.length = total ∧ 0 < total then
        let run1 := { run with status := .FINISHED, updated_at := now }
        let done := (jobs.filter (fun j => j.status = .DONE)).length
        let summary : RunSummary :=
          { total := total, done := done, failed := total - done,
            duration_seconds := now - run.created_at }
        (true, updateRun st run1, some summary)
      else (false, st, none)

/-- `collector/models.py` `ResolveResult` (used by `resolver_v2` / the worker). -/
structure ResolveRes where
  youtube_channel_id : Option (List Char) := none
  username : Option (List Char) := none
  needs_search_fallback : Bool := false
  error : Option (List Char) := none
deriving DecidableEq

/-- Python truthiness of an optional string (`None` and `""` are falsy). -/
def pyTruthyOpt (o : Option (List Char)) : Bool :=
  match o with
  | none => false
  | some s => s ≠ []

/-- What happens while the worker awaits the resolver: a returned
`ResolveResult`, an `asyncio.CancelledError` (soft time limit), or any other
exception (caught only by the outer Celery task). -/
inductive ResolveEvent where
  | ok (r : ResolveRes)
  | cancelled
  | exn (msg : List Char)
deriving DecidableEq

/-- `process_channel_job` / `process_channel_job_async` of
`collector/tasks.py` for one delivered `(job_id, run_id)` task. `t1` is the
wall clock at the PROCESSING transition, `t2` at the terminal transition.
The second component collects the run ids for which a finalizer task is
enqueued: the source never calls `finalize_run_task.delay` (its `finally`
block is `pass`), so every path yields `[]`. On `.ok`: DONE if the resolved
id is truthy, else NEEDS_SEARCH on fallback, else FAILED with the result
error. On `.cancelled`: the async worker marks the job FAILED and re-raises;
the wrapper only reports to Celery. On `.exn`: the wrapper re-reads the job
and marks it FAILED with the message. -/
def process_channel_job (st : StoreState) (jid rid : ℕ) (ev : ResolveEvent)
    (t1 t2 : ℕ) : StoreState × List ℕ :=
  match lookupJob st jid with
  | none => (st, [])
  | some j =>
    match lookupRun st rid with
    | none => (st, [])
    | some _run =>
      let j1 := { j with status := .PROCESSING, updated_at := t1 }
      let st1 := updateJob st j1
      match ev with
      | .ok r =>
        let j2 :=
          if pyTruthyOpt r.youtube_channel_id then
            { j1 with updated_at := t2, status := .DONE,
                      youtube_channel_id := r.youtube_channel_id }
          else if r.needs_search_fallback then
            { j1 with updated_at := t2, status := .NEEDS_SEARCH,
                      last_error := some "Needs expensive search fallback".toList }
          else
            { j1 with updated_at := t2, status := .FAILED, last_error := r.error }
        (updateJob st1 j2, [])
      | .cancelled =>
        let j2 := { j1 with status := .FAILED,
                            last_error := some "Task cancelled or TTL exceeded".toList,
                            updated_at := t2 }
        (updateJob st1 j2, [])
      | .exn msg =>
        match lookupJob st1 jid with
        | none => (st1, [])
        | some jx =>
          (updateJob st1 { jx with status := .FAILED, last_error := some msg,
                                   updated_at := t2 }, [])

/-!
## Helper lemmas on the store
-/

theorem lookupJob_updateJob_aux (jobs : List (ℕ × JobRec)) (runs : List (ℕ × RunRec))
    (jid : ℕ) (j j' : JobRec) (hid : j'.id = jid)
    (h : lookupJob ⟨runs, jobs⟩ jid = some j) :
    lookupJob (updateJob ⟨runs, jobs⟩ j') jid = some j' := by
  induction jobs with
  | nil => simp [lookupJob, List.find?] at h
  | cons p rest ih =>
    by_cases hk : p.1 = jid
    · simp [lookupJob, updateJob, List.find?, hk, hid]
    · have h' : lookupJob ⟨runs, rest⟩ jid = some j := by
        simpa [lookupJob, List.find?, hk] using h
      have := ih h'
      simpa [lookupJob, updateJob, List.find?, hk, hid,
             show ¬ p.1 = j'.id by rw [hid]; exact hk] using this

theorem lookupJob_updateJob (st : StoreState) (jid : ℕ) (j j' : JobRec)
    (hid : j'.id = jid) (h : lookupJob st jid = some j) :
    lookupJob (updateJob st j') jid = some j' := by
  obtain ⟨runs, jobs⟩ := st
  exact lookupJob_updateJob_aux jobs runs jid j j' hid h

theorem startRunJobs_all_blank (st : StoreState) (runId nextJob now : ℕ)
    (inputs : List (List Char)) (h : ∀ i ∈ inputs, i = [] ∨ pyStrip i = []) :
    startRunJobs st runId nextJob now inputs = some (st, nextJob, 0, []) := by
  induction inputs with
  | nil => rfl
  | cons i rest ih =>
    have hi : i = [] ∨ pyStrip i = [] := h i (by simp)
    have hrest := ih (fun x hx => h x (by simp [hx]))
    simp [startRunJobs, hi, hrest]

theorem lookupRun_append_fresh (runs : List (ℕ × RunRec)) (jobs : List (ℕ × JobRec))
    (rid : ℕ) (r : RunRec) (hfresh : runs.any (fun p => p.1 = rid) = false) :
    lookupRun ⟨runs ++ [(rid, r)], jobs⟩ rid = some r := by
  induction runs with
  | nil => simp [lookupRun, List.find?]
  | cons p rest ih =>
    have hk : ¬ p.1 = rid := by
      intro hk
      simp [List.any_cons, hk] at hfresh
    have hrest : rest.any (fun p => p.1 = rid) = false := by
      simpa [List.any_cons, hk] using hfresh
    simpa [lookupRun, List.find?, hk] using ih hrest

/-!
## Fixtures for the concrete evaluations
-/

/-- A RUNNING Run with id 1, created at time 0. -/
def runA : RunRec :=
  { id := 1, analysis_id := 1, owner_id := 1, status := .RUNNING,
    created_at := 0, updated_at := 0 }

/-- A Job in the terminal status NEEDS_SEARCH. -/
def jobNS : JobRec :=
  { id := 1, run_id := 1, input_channel := "@x".toList, status := .NEEDS_SEARCH,
    last_error := some "Needs expensive search fallback".toList,
    created_at := 0, updated_at := 0 }

/-- Store: Run 1 RUNNING with its only Job in NEEDS_SEARCH. -/
def stNS : StoreState := ⟨[(1, runA)], [(1, jobNS)]⟩

def jobD : JobRec :=
  { id := 1, run_id := 1, input_channel := "a".toList, status := .DONE,
    youtube_channel_id := some "UCaaaaaaaaaaaaaaaaaaaaaa".toList,
    created_at := 0, updated_at := 0 }

def jobF : JobRec :=
  { id := 2, run_id := 1, input_channel := "b".toList, status := .FAILED,
    last_error := some "not found".toList, created_at := 0, updated_at := 0 }

/-- Store: Run 1 RUNNING with one DONE and one FAILED Job. -/
def stDF : StoreState := ⟨[(1, runA)], [(1, jobD), (2, jobF)]⟩

/-- Store: Run 1 RUNNING with a single Job already DONE. -/
def stDone : StoreState := ⟨[(1, runA)], [(1, jobD)]⟩

/-- A resolver outcome representing an API-level failure on re-delivery. -/
def evFail : ResolveEvent :=
  .ok { youtube_channel_id := none, needs_search_fallback := false,
        error := some "HttpError 500".toList }

/-- A resolver outcome that resolves the channel. -/
def evOk : ResolveEvent :=
  .ok { youtube_channel_id := some "UCbbbbbbbbbbbbbbbbbbbbbb".toList }

/-!
## Claims
-/

/-- C1: the claim says a Run whose Jobs are all terminal (DONE, FAILED or
NEEDS_SEARCH) is finalized, with `finished_at` and a summary (containing
`needs_search`) set atomically. The code refutes this: (1) `finalize_run`
counts only DONE and FAILED as finished, so a Run whose only Job is
NEEDS_SEARCH is left untouched and `finalize_run` returns false; (2) even
for a DONE/FAILED Run, the transition sets only `status` and `updated_at` —
the stored Run keeps `finished_at = none` and `summary = none`, and the
summary dict that is computed (and merely logged) has no `needs_search`
field (`RunSummary` has exactly total/done/failed/duration_seconds). -/
theorem finalize_run_ignores_needs_search_and_sets_nothing :
    finalize_run stNS 1 99 = (false, stNS, none) ∧
    jobNS.status = .NEEDS_SEARCH ∧ runA.status = .RUNNING ∧
    (lookupRun (finalize_run stDF 1 99).2.1 1).map
        (fun r => (r.status, r.finished_at, r.summary)) =
      some (.FINISHED, none, none) ∧
    (finalize_run stDF 1 99).2.2 =
      some { total := 2, done := 1, failed := 1, duration_seconds := 99 } := by
  refine ⟨by decide, rfl, rfl, by decide, by decide⟩

/-- C2: the claim says the worker unconditionally enqueues a finalizer
invocation for `run_id` after driving the Job to a terminal status. The code
never does: `process_channel_job`'s `finally` block is `pass` and neither it
nor `process_channel_job_async` calls `finalize_run_task.delay`, so the list
of enqueued finalizer runs is `[]` on every path — including the concrete
delivery below, which does drive Job 1 of the existing Run 1 to DONE. -/
theorem worker_never_enqueues_finalizer :
    (∀ st jid rid ev t1 t2, (process_channel_job st jid rid ev t1 t2).2 = []) ∧
    (lookupJob (process_channel_job stNS 1 1 evOk 5 6).1 1).map (fun j => j.status) =
      some .DONE ∧
    (process_channel_job stNS 1 1 evOk 5 6).2 = [] := by
  refine ⟨?_, by decide, by decide⟩
  intro st jid rid ev t1 t2
  unfold process_channel_job
  cases h1 : lookupJob st jid with
  | none => rfl
  | some j =>
    cases h2 : lookupRun st rid with
    | none => rfl
    | some r =>
      cases ev with
      | ok res => rfl
      | cancelled => rfl
      | exn msg =>
        cases h3 : lookupJob (updateJob st { j with status := .PROCESSING, updated_at := t1 }) jid <;>
          simp [h3]

/-- C3 counterexample: the claim says a second delivery of a task whose Job
is already terminal leaves the Job record unchanged. Concretely, Job 1 is
DONE (terminal) in `stDone`; re-delivering `(1, 1)` while the resolver now
reports an API failure re-processes the Job and flips it to FAILED, so the
store changes. -/
theorem redelivery_changes_terminal_job :
    jobD.status = .DONE ∧
    (lookupJob (process_channel_job stDone 1 1 evFail 20 21).1 1).map
        (fun j => j.status) = some .FAILED ∧
    (process_channel_job stDone 1 1 evFail 20 21).1 ≠ stDone := by
  refine ⟨rfl, by decide, by decide⟩

/-- C3 amended: the worker performs no terminal-status check at all. For any
delivered `(job_id, run_id)` whose Job (already terminal) and Run both
exist, the worker re-processes the Job: it is overwritten with a fresh
record whose status and fields come from the new resolver result and whose
`updated_at` is the new wall clock — it is not left unchanged. -/
theorem redelivery_reprocesses_job (st : StoreState) (jid rid t1 t2 : ℕ)
    (j : JobRec) (r : RunRec) (res : ResolveRes)
    (hid : j.id = jid)
    (_hterm : j.status = .DONE ∨ j.status = .FAILED ∨ j.status = .NEEDS_SEARCH)
    (hj : lookupJob st jid = some j) (hr : lookupRun st rid = some r) :
    lookupJob (process_channel_job st jid rid (.ok res) t1 t2).1 jid =
      some (if pyTruthyOpt res.youtube_channel_id then
              { j with status := .DONE, updated_at := t2,
                       youtube_channel_id := res.youtube_channel_id }
            else if res.needs_search_fallback then
              { j with status := .NEEDS_SEARCH, updated_at := t2,
                       last_error := some "Needs expensive search fallback".toList }
            else
              { j with status := .FAILED, updated_at := t2, last_error := res.error }) := by
  have h1 : lookupJob (updateJob st { j with status := .PROCESSING, updated_at := t1 }) jid =
      some { j with status := .PROCESSING, updated_at := t1 } :=
    lookupJob_updateJob st jid j _ hid hj
  unfold process_channel_job
  rw [hj, hr]
  cases hc1 : pyTruthyOpt res.youtube_channel_id with
  | true =>
    simp only [hc1, if_true]
    exact lookupJob_updateJob _ jid _ _ hid h1
  | false =>
    cases hc2 : res.needs_search_fallback with
    | true =>
      simp only [hc1, hc2, if_true, if_false, Bool.false_eq_true]
      exact lookupJob_updateJob _ jid _ _ hid h1
    | false =>
      simp only [hc1, hc2, if_false, Bool.false_eq_true]
      exact lookupJob_updateJob _ jid _ _ hid h1

/-- C3 amended, witness: the amended theorem applied to the concrete
re-delivery of the DONE Job 1 with a failing resolver outcome. -/
theorem redelivery_reprocesses_job_witness :
    lookupJob (process_channel_job stDone 1 1 evFail 20 21).1 1 =
      some { jobD with status := .FAILED, updated_at := 21,
                       last_error := some "HttpError 500".toList } := by
  have h := redelivery_reprocesses_job stDone 1 1 20 21 jobD runA
    { youtube_channel_id := none, needs_search_fallback := false,
      error := some "HttpError 500".toList }
    rfl (Or.inl rfl) (by decide) (by decide)
  simpa [evFail, pyTruthyOpt] using h

/-- The empty store. -/
def stEmpty : StoreState := ⟨[], []⟩

/-- C8 counterexample: the claim says a `start_run` whose inputs normalize to
zero invokes the finalizer synchronously and the Run reaches FINISHED with a
total-0 summary before `start_run` returns. In the code `start_run` never
calls `finalize_run`: with inputs `[" ", ""]` it creates Run 1, launches no
jobs, and returns with the Run still RUNNING and no summary; moreover even an
explicit later `finalize_run` on that store returns false because of its
`total_jobs > 0` guard. -/
theorem start_run_zero_inputs_not_finished :
    (start_run stEmpty 1 1 7 9 [" ".toList, "".toList] 0).map
        (fun x => ((lookupRun x.1 1).map (fun r => (r.status, r.summary)), x.2.2.1, x.2.2.2)) =
      some (some (.RUNNING, none), 0, []) ∧
    (start_run stEmpty 1 1 7 9 [" ".toList, "".toList] 0).map
        (fun x => (finalize_run x.1 1 5).1) = some false := by
  exact ⟨by decide, by decide⟩

/-- The Run record that `start_run` creates. -/
def startRunRec (nextRun analysis owner now : ℕ) : RunRec :=
  { id := nextRun, analysis_id := analysis, owner_id := owner,
    status := .RUNNING, created_at := now, updated_at := now }

/-- C8 amended: for every `start_run` whose inputs all normalize to empty
(each input is empty or whitespace-only), and a fresh run id with no
pre-existing jobs under it, `start_run` creates the Run with status RUNNING,
creates no Jobs, enqueues nothing, and returns `jobs_created = 0`; the
finalizer is not invoked — and invoking `finalize_run` on the resulting
store at any time still returns false, because a zero-job Run is never
finalized. -/
theorem start_run_zero_inputs_stays_running (st : StoreState)
    (nextRun nextJob analysis owner now : ℕ) (inputs : List (List Char))
    (hblank : ∀ i ∈ inputs, i = [] ∨ pyStrip i = [])
    (hfresh : st.runs.any (fun p => p.1 = nextRun) = false)
    (hnojobs : jobsForRun st nextRun = []) :
    ∃ st', start_run st nextRun nextJob analysis owner inputs now =
        some (st', nextJob, 0, []) ∧
      lookupRun st' nextRun = some (startRunRec nextRun analysis owner now) ∧
      ∀ t, (finalize_run st' nextRun t).1 = false := by
  obtain ⟨runs, jobs⟩ := st
  refine ⟨⟨runs ++ [(nextRun, startRunRec nextRun analysis owner now)], jobs⟩, ?_, ?_, ?_⟩
  · unfold start_run createRun
    simp only [hfresh, Bool.false_eq_true, if_false]
    exact startRunJobs_all_blank _ nextRun nextJob now inputs hblank
  · exact lookupRun_append_fresh runs jobs nextRun _ hfresh
  · intro t
    have hlk := lookupRun_append_fresh runs jobs nextRun
      (startRunRec nextRun analysis owner now) hfresh
    have hj2 : (jobs.map Prod.snd).filter (fun j => j.run_id = nextRun) = [] := by
      simpa [jobsForRun] using hnojobs
    unfold finalize_run
    rw [hlk]
    simp [startRunRec, jobsForRun, hj2]

/-- C8 amended, witness: the amended theorem applied to the empty store and
the blank input list `[" ", ""]`. -/
theorem start_run_zero_inputs_stays_running_witness :
    ∃ st', start_run stEmpty 1 1 7 9 [" ".toList, "".toList] 0 = some (st', 1, 0, []) ∧
      lookupRun st' 1 = some (startRunRec 1 7 9 0) ∧
      ∀ t, (finalize_run st' 1 t).1 = false := by
  exact start_run_zero_inputs_stays_running stEmpty 1 1 7 9 0
    [" ".toList, "".toList] (by decide) (by decide) (by decide)

/-- C9: the claim (and the repository's own test
`test_start_run_deduplicates_inputs`) says `start_run` trims each input,
discards empties and deduplicates, so `[" ", "", " @x ", "@x"]` yields one
Job with `input_channel = "@x"`. The code only discards empty/whitespace
inputs: it stores inputs verbatim (untrimmed) and never deduplicates, so
this list yields two Jobs with inputs `" @x "` and `"@x"`. -/
theorem start_run_does_not_trim_or_dedup :
    (start_run stEmpty 1 1 7 9 [" ".toList, "".toList, " @x ".toList, "@x".toList] 0).map
        (fun x => (x.2.2.1, (jobsForRun x.1 1).map (fun j => j.input_channel), x.2.2.2)) =
      some (2, [" @x ".toList, "@x".toList], [(1, 1), (2, 1)]) := by
  decide

/-- One transient step of the `collector/yt/safe_execute.py` loop: a 429/5xx
outcome is never classified as quota, increments `retries`, and either
exhausts the budget or sleeps exactly `backoff` and doubles it. -/
theorem sync_loop_transient_step (outcomes : ℕ → SOutcome) (r k : ℕ) (backoff : ℚ)
    (sleeps : List ℚ) (s : ℕ) (d : List (Option (List Char)))
    (h : outcomes k = .httpErr s d) (ht : s = 429 ∨ 500 ≤ s) :
    sync_safe_execute_loop outcomes (r + 1) k backoff sleeps =
      if r = 0 then ⟨.raisedExhausted s d, sleeps, k + 1⟩
      else sync_safe_execute_loop outcomes r (k + 1) (backoff * 2) (sleeps ++ [backoff]) := by
  have h403 : isQuotaDetails s d = false := by
    have : ¬ s = 403 := by rcases ht with h1 | h1 <;> omega
    simp [isQuotaDetails, this]
  have htr : isTransientStatus s = true := by
    simp only [isTransientStatus]
    exact decide_eq_true (by exact_mod_cast ht)
  rw [sync_safe_execute_loop, h]
  simp [h403, htr]

def outcomesW : ℕ → SOutcome := fun _ => .httpErr 503 [some "backendError".toList]

/-- C7: for every sequence of outcomes in which each attempt fails with a
TRANSIENT error (HTTP 429 or ≥ 500), `safe_execute` of
`collector/yt/safe_execute.py` makes exactly `MAX_RETRIES = 5` attempts,
sleeps between consecutive attempts for `backoff + jitter` seconds with
`jitter ∈ [0, 1)` (this variant draws jitter 0: it sleeps exactly `backoff`)
and backoff starting at 1.0 and doubling each time, and after exhaustion
fails carrying the last (fifth) error observed. -/
theorem sync_safe_execute_transient_budget (outcomes : ℕ → SOutcome)
    (h : ∀ k, ∃ s d, outcomes k = .httpErr s d ∧ (s = 429 ∨ 500 ≤ s)) :
    (sync_safe_execute outcomes).calls = 5 ∧
    (sync_safe_execute outcomes).sleeps = [1, 2, 4, 8] ∧
    (∀ i, ∀ hi : i < (sync_safe_execute outcomes).sleeps.length,
      ∃ j : ℚ, 0 ≤ j ∧ j < 1 ∧
        (sync_safe_execute outcomes).sleeps.get ⟨i, hi⟩ = 2 ^ i + j) ∧
    (∃ s d, outcomes 4 = .httpErr s d ∧
      (sync_safe_execute outcomes).res = .raisedExhausted s d) := by
  obtain ⟨s0, d0, e0, t0⟩ := h 0
  obtain ⟨s1, d1, e1, t1⟩ := h 1
  obtain ⟨s2, d2, e2, t2⟩ := h 2
  obtain ⟨s3, d3, e3, t3⟩ := h 3
  obtain ⟨s4, d4, e4, t4⟩ := h 4
  have run_eq : sync_safe_execute outcomes = ⟨.raisedExhausted s4 d4, [1, 2, 4, 8], 5⟩ := by
    unfold sync_safe_execute
    rw [sync_loop_transient_step outcomes 4 0 1 [] s0 d0 e0 t0]
    rw [if_neg (by omega)]
    rw [sync_loop_transient_step outcomes 3 (0 + 1) (1 * 2) ([] ++ [1]) s1 d1 e1 t1]
    rw [if_neg (by omega)]
    rw [sync_loop_transient_step outcomes 2 (0 + 1 + 1) (1 * 2 * 2)
        ([] ++ [1] ++ [1 * 2]) s2 d2 e2 t2]
    rw [if_neg (by omega)]
    rw [sync_loop_transient_step outcomes 1 (0 + 1 + 1 + 1) (1 * 2 * 2 * 2)
        ([] ++ [1] ++ [1 * 2] ++ [1 * 2 * 2]) s3 d3 e3 t3]
    rw [if_neg (by omega)]
    rw [sync_loop_transient_step outcomes 0 (0 + 1 + 1 + 1 + 1) (1 * 2 * 2 * 2 * 2)
        ([] ++ [1] ++ [1 * 2] ++ [1 * 2 * 2] ++ [1 * 2 * 2 * 2]) s4 d4 e4 t4]
    rw [if_pos rfl]
    norm_num
  refine ⟨by rw [run_eq], by rw [run_eq], ?_, s4, d4, e4, by rw [run_eq]⟩
  intro i hi
  refine ⟨0, le_refl 0, by norm_num, ?_⟩
  have hlen : i < 4 := by
    have := hi
    rw [run_eq] at this
    simpa using this
  interval_cases i <;> simp [run_eq] <;> norm_num

/-- C7 witness: the theorem applied to the constant 503 outcome stream. -/
theorem sync_safe_execute_transient_budget_witness :
    (sync_safe_execute outcomesW).calls = 5 ∧
    (sync_safe_execute outcomesW).sleeps = [1, 2, 4, 8] ∧
    (sync_safe_execute outcomesW).res =
      .raisedExhausted 503 [some "backendError".toList] := by
  obtain ⟨h1, h2, _h3, s, d, he, hres⟩ :=
    sync_safe_execute_transient_budget outcomesW
      (fun _ => ⟨503, [some "backendError".toList], rfl, Or.inr (by omega)⟩)
  have hpair : SOutcome.httpErr 503 [some "backendError".toList] = SOutcome.httpErr s d := by
    have := he
    unfold outcomesW at this
    exact this
  injection hpair with hs hd
  refine ⟨h1, h2, ?_⟩
  rw [hres, ← hs, ← hd]

/-!
## C4: quota handling in the retry pipeline of `collector/yt_client.py`
-/

def rotW1 : RotState := ⟨["k1".toList], [], 60⟩

def rotW6 : RotState :=
  ⟨["k1".toList, "k2".toList, "k3".toList, "k4".toList, "k5".toList, "k6".toList], [], 60⟩

/-- Every attempt raises HTTP 403 with reason `userRateLimitExceeded`. -/
def outcomesURL : ℕ → AOutcome := fun _ => .httpErr 403 "userRateLimitExceeded".toList

/-- Five quota errors, then success. -/
def outcomesQuota : ℕ → AOutcome :=
  fun k => if k < 5 then .httpErr 403 "quotaExceeded".toList else .success 42

def jitter0 : ℕ → ℚ := fun _ => 0

/-- C4 counterexample: the claim says every 403 whose reasons include
`quotaExceeded`, `dailyLimitExceeded` *or `userRateLimitExceeded`* cools the
key and retries immediately without consuming a `MAX_RETRIES` attempt. The
code refutes both parts: (1) a 403 `userRateLimitExceeded` is not recognized
as quota (the test looks only for the substrings `quotaExceeded` /
`dailyLimitExceeded` in the content) and fails fast with no cooldown; (2)
quota retries do consume the attempt budget: with six keys and five straight
`quotaExceeded` errors the pipeline exhausts its 5 attempts and re-raises the
last quota error instead of reaching the sixth key, whose call would have
succeeded. -/
theorem quota_rotation_claim_counterexample :
    (rotator_safe_execute rotW1 outcomesURL jitter0 100).res =
      .raised (.http 403 "userRateLimitExceeded".toList) ∧
    (rotator_safe_execute rotW1 outcomesURL jitter0 100).rot.cooldownKeys = [] ∧
    (rotator_safe_execute rotW6 outcomesQuota jitter0 100).res =
      .raised (.http 403 "quotaExceeded".toList) ∧
    (rotator_safe_execute rotW6 outcomesQuota jitter0 100).res ≠ .ok 42 ∧
    ((rotator_safe_execute rotW6 outcomesQuota jitter0 100).rot.cooldownKeys.map Prod.fst) =
      ["k1".toList, "k2".toList, "k3".toList, "k4".toList, "k5".toList] ∧
    (rotator_safe_execute rotW6 outcomesQuota jitter0 100).rot.apiKeys = ["k6".toList] ∧
    (rotator_safe_execute rotW6 outcomesQuota jitter0 100).sleeps = [] := by
  refine ⟨by decide, by decide, by decide, by decide, by decide, by decide, by decide⟩

/-- C4 amended: in `YouTubeClientRotator.safe_execute`, an `HttpError` whose
content mentions `quotaExceeded` or `dailyLimitExceeded` (regardless of HTTP
status; `userRateLimitExceeded` is not recognized and fails fast) makes the
pipeline cool the acquired key (`cooldown_until = now + cooldown_time`) and
retry immediately with the next key — no sleep, no backoff change — but the
retry consumes one of the `max_retries = 5` attempts. -/
theorem rotator_quota_step (outcomes : ℕ → AOutcome) (jitter : ℕ → ℚ) (now r a : ℕ)
    (st st1 : RotState) (last : Option AErr) (sleeps : List ℚ) (key : List Char)
    (s : ℕ) (c : List Char)
    (hget : getKey st now = some (key, st1))
    (hout : outcomes a = .httpErr s c)
    (hq : isQuotaContent c = true) :
    safeExecuteLoop outcomes jitter now (r + 1) a st last sleeps =
      safeExecuteLoop outcomes jitter now r (a + 1) (cooldownKey st1 key now)
        (some (.http s c)) sleeps ∧
    (key, now + st1.cooldownTime) ∈ (cooldownKey st1 key now).cooldownKeys := by
  constructor
  · rw [safeExecuteLoop, hget, hout]
    simp [hq]
  · unfold cooldownKey
    by_cases hmem : st1.cooldownKeys.any (fun p => p.1 = key) = true
    · simp only [hmem, if_true]
      obtain ⟨p, hp, hpk⟩ := List.any_eq_true.mp hmem
      have hpk' : p.1 = key := by simpa using hpk
      exact List.mem_map.mpr ⟨p, hp, by simp [hpk']⟩
    · simp only [Bool.not_eq_true] at hmem
      simp [hmem]

/-- C4 amended, witness: one `quotaExceeded` error followed by success, with
two keys: the first attempt cools `k1` with `cooldown_until = 100 + 60`,
consumes an attempt, and the retry succeeds on `k2` with no sleep. -/
theorem rotator_quota_step_witness :
    safeExecuteLoop (fun k => if k = 0 then .httpErr 403 "quotaExceeded".toList
        else .success 42) jitter0 100 5 0 ⟨["k1".toList, "k2".toList], [], 60⟩ none [] =
      safeExecuteLoop (fun k => if k = 0 then .httpErr 403 "quotaExceeded".toList
        else .success 42) jitter0 100 4 1
        (cooldownKey ⟨["k2".toList, "k1".toList], [], 60⟩ "k1".toList 100)
        (some (.http 403 "quotaExceeded".toList)) [] ∧
    ("k1".toList, 160) ∈
      (cooldownKey ⟨["k2".toList, "k1".toList], [], 60⟩ "k1".toList 100).cooldownKeys := by
  exact rotator_quota_step _ jitter0 100 4 0 ⟨["k1".toList, "k2".toList], [], 60⟩
    ⟨["k2".toList, "k1".toList], [], 60⟩ none [] "k1".toList 403
    "quotaExceeded".toList (by decide) (by decide) (by decide)

/-!
## C5: cooldown and acquisition invariants of `YouTubeClientRotator`
-/

/-- Well-formedness of the rotator state: all keys distinct overall (true of
any state reachable from a constructor call with distinct keys, since the
code moves keys between the deque and the cooldown dict). -/
def RotWF (st : RotState) : Prop :=
  st.apiKeys.Nodup ∧ (st.cooldownKeys.map Prod.fst).Nodup ∧
    ∀ x ∈ st.apiKeys, x ∉ st.cooldownKeys.map Prod.fst

theorem any_fst_eq_false_iff (l : List (List Char × ℕ)) (x : List Char) :
    l.any (fun p => p.1 = x) = false ↔ x ∉ l.map Prod.fst := by
  rw [← Bool.not_eq_true, List.any_eq_true]
  simp [List.mem_map, eq_comm]

theorem selectKey_returns_uncooled :
    ∀ (fuel : ℕ) (ks : List (List Char)) (cds : List (List Char × ℕ))
      (k : List Char) (rest : List (List Char)),
      selectKey fuel ks cds = some (k, rest) → cds.any (fun p => p.1 = k) = false := by
  intro fuel
  induction fuel with
  | zero => intro ks cds k rest h; simp [selectKey] at h
  | succ n ih =>
    intro ks cds k rest h
    match ks with
    | [] => simp [selectKey] at h
    | a :: t =>
      by_cases hc : cds.any (fun p => p.1 = a) = true
      · rw [selectKey, if_pos hc] at h
        exact ih _ _ _ _ h
      · rw [selectKey, if_neg hc] at h
        obtain ⟨hk, _⟩ := Prod.mk.injEq .. ▸ Option.some.injEq .. ▸ h
        rw [← hk]
        exact Bool.not_eq_true _ ▸ hc

theorem selectKey_preserves_mem :
    ∀ (fuel : ℕ) (ks : List (List Char)) (cds : List (List Char × ℕ))
      (k : List Char) (rest : List (List Char)),
      selectKey fuel ks cds = some (k, rest) → ∀ x ∈ ks, x ∈ rest := by
  intro fuel
  induction fuel with
  | zero => intro ks cds k rest h; simp [selectKey] at h
  | succ n ih =>
    intro ks cds k rest h x hx
    match ks with
    | [] => simp [selectKey] at h
    | a :: t =>
      have hx' : x ∈ t ++ [a] := by
        rcases List.mem_cons.mp hx with h1 | h1
        · simp [h1]
        · simp [h1]
      by_cases hc : cds.any (fun p => p.1 = a) = true
      · rw [selectKey, if_pos hc] at h
        exact ih _ _ _ _ h x hx'
      · rw [selectKey, if_neg hc] at h
        obtain ⟨_, hrest⟩ := Prod.mk.injEq .. ▸ Option.some.injEq .. ▸ h
        rw [← hrest]
        exact hx'

theorem reintegrate_disjoint (st : RotState) (now : ℕ) (hWF : RotWF st) :
    ∀ x ∈ (reintegrate st now).apiKeys,
      x ∉ (reintegrate st now).cooldownKeys.map Prod.fst := by
  obtain ⟨_hnd, hcd, hdisj⟩ := hWF
  intro x hx hmem
  obtain ⟨q, hq, hqx⟩ := List.mem_map.mp hmem
  have hq' : q ∈ st.cooldownKeys := List.mem_of_mem_filter hq
  rcases List.mem_append.mp hx with h1 | h1
  · exact hdisj x h1 (List.mem_map.mpr ⟨q, hq', hqx⟩)
  · obtain ⟨p, hp, hpx⟩ := List.mem_map.mp h1
    have hp' : p ∈ st.cooldownKeys := List.mem_of_mem_filter hp
    have hpq : p = q := by
      have := List.inj_on_of_nodup_map hcd hp' hq'
      exact this (by rw [hpx, hqx])
    have hpass : decide (p.2 ≤ now) = true := by
      have := (List.mem_filter.mp hp).2
      simpa using this
    have hfail : decide (¬ p.2 ≤ now) = true := by
      have := (List.mem_filter.mp hq).2
      rw [← hpq] at this
      simpa using this
    simp at hpass hfail
    omega

/-- C5: in `YouTubeClientRotator`, a key whose cooldown entry ends at time
`e` (set by `_cooldown_key` at time `t` with duration `d`, so `e = t + d`,
default `d = 60`) is never returned by `_get_key` before `e`; at any
`_get_key` at or after `e` the key is reintegrated into the live deque, is no
longer on cooldown in the resulting state, and remains in the live pool; and
`_get_key` fails (raises its no-keys `RuntimeError`) exactly when the live
pool is empty after reintegration. -/
theorem rotator_cooldown_contract (st : RotState) (key : List Char) (e now : ℕ)
    (hWF : RotWF st) (hmem : (key, e) ∈ st.cooldownKeys) :
    (now < e → (getKey st now).map Prod.fst ≠ some key) ∧
    (e ≤ now → key ∈ (reintegrate st now).apiKeys ∧
      ∀ pr, getKey st now = some pr →
        key ∉ pr.2.cooldownKeys.map Prod.fst ∧ key ∈ pr.2.apiKeys) ∧
    (getKey st now = none ↔ (reintegrate st now).apiKeys = []) := by
  refine ⟨?_, ?_, ?_⟩
  · -- (a) not returned before the cooldown end
    intro hlt hcontra
    unfold getKey at hcontra
    cases hsel : selectKey (reintegrate st now).apiKeys.length (reintegrate st now).apiKeys
        (reintegrate st now).cooldownKeys with
    | none => rw [hsel] at hcontra; simp at hcontra
    | some pr =>
      obtain ⟨k, ks⟩ := pr
      rw [hsel] at hcontra
      simp at hcontra
      have hun := selectKey_returns_uncooled _ _ _ _ _ hsel
      have hkey_in : (reintegrate st now).cooldownKeys.any (fun p => p.1 = key) = true := by
        apply List.any_eq_true.mpr
        refine ⟨(key, e), ?_, by simp⟩
        exact List.mem_filter.mpr ⟨hmem, by simp; omega⟩
      rw [hcontra] at hun
      rw [hun] at hkey_in
      exact Bool.false_ne_true hkey_in
  · -- (b) reintegration and eligibility at or after the cooldown end
    intro hle
    have hkmem : key ∈ (reintegrate st now).apiKeys :=
      List.mem_append.mpr (Or.inr
        (List.mem_map.mpr ⟨(key, e), List.mem_filter.mpr ⟨hmem, by simpa using hle⟩, rfl⟩))
    refine ⟨hkmem, ?_⟩
    intro pr hpr
    unfold getKey at hpr
    cases hsel : selectKey (reintegrate st now).apiKeys.length (reintegrate st now).apiKeys
        (reintegrate st now).cooldownKeys with
    | none => rw [hsel] at hpr; simp at hpr
    | some pr2 =>
      obtain ⟨k, ks⟩ := pr2
      rw [hsel] at hpr
      simp at hpr
      rw [← hpr]
      constructor
      · intro hbad
        obtain ⟨q, hq, hqk⟩ := List.mem_map.mp hbad
        have hq' : q ∈ st.cooldownKeys := List.mem_of_mem_filter hq
        have hqe : q = (key, e) :=
          List.inj_on_of_nodup_map hWF.2.1 hq' hmem (by rw [hqk])
        have := (List.mem_filter.mp hq).2
        rw [hqe] at this
        simp at this
        omega
      · exact selectKey_preserves_mem _ _ _ _ _ hsel key hkmem
  · -- (c) failure exactly on an empty reintegrated pool
    constructor
    · intro hnone
      cases hl : (reintegrate st now).apiKeys with
      | nil => rfl
      | cons a t =>
        exfalso
        have ha : a ∈ (reintegrate st now).apiKeys := by rw [hl]; simp
        have hfree : (reintegrate st now).cooldownKeys.any (fun p => p.1 = a) = false :=
          (any_fst_eq_false_iff _ _).mpr (reintegrate_disjoint st now hWF a ha)
        unfold getKey at hnone
        rw [hl] at hnone
        rw [List.length_cons, selectKey, if_neg (by rw [hfree]; exact Bool.false_ne_true)]
          at hnone
        simp at hnone
    · intro hempty
      unfold getKey
      rw [hempty]
      simp [selectKey]

def stW5 : RotState := ⟨["k1".toList, "k2".toList], [("k3".toList, 50)], 60⟩

/-- C5 witness: the contract applied to a pool of two live keys with `k3`
cooling until t = 50; at t = 10 `k3` cannot be acquired, at t = 60 it is
back in the live pool, and acquisition fails iff the reintegrated pool is
empty. -/
theorem rotator_cooldown_contract_witness :
    (getKey stW5 10).map Prod.fst ≠ some "k3".toList ∧
    "k3".toList ∈ (reintegrate stW5 60).apiKeys ∧
    (getKey stW5 10 = none ↔ (reintegrate stW5 10).apiKeys = []) := by
  refine ⟨(rotator_cooldown_contract stW5 "k3".toList 50 10 ⟨by decide, by decide, by decide⟩
      (by decide)).1 (by omega),
    ((rotator_cooldown_contract stW5 "k3".toList 50 60 ⟨by decide, by decide, by decide⟩
      (by decide)).2.1 (by omega)).1,
    (rotator_cooldown_contract stW5 "k3".toList 50 10 ⟨by decide, by decide, by decide⟩
      (by decide)).2.2⟩

/-!
## C6: direct channel-id resolution
-/

/-- A channel-id token: `UC` followed by exactly 22 characters of
`[A-Za-z0-9_-]` (24 characters in all). -/
def isChanIdToken (m : List Char) : Prop :=
  ∃ body, m = 'U' :: 'C' :: body ∧ body.length = 22 ∧ body.all idClass = true

theorem prefixToInfix {m s : List Char} (h : m <+: s) : m <:+: s := by
  obtain ⟨t, ht⟩ := h
  exact ⟨[], t, by simpa using ht⟩

theorem infixCons {m l : List Char} (a : Char) (h : m <:+: l) : m <:+: a :: l := by
  obtain ⟨u, v, huv⟩ := h
  exact ⟨a :: u, v, by rw [← huv]; simp⟩

theorem infixConsElim {m l : List Char} {a : Char} (h : m <:+: a :: l) :
    m <+: a :: l ∨ m <:+: l := by
  obtain ⟨u, v, huv⟩ := h
  cases u with
  | nil => exact Or.inl ⟨v, by simpa using huv⟩
  | cons x u' =>
    have hx : x :: (u' ++ m ++ v) = a :: l := by simpa using huv
    right
    exact ⟨u', v, by injection hx⟩

theorem infixReverse {m l : List Char} (h : m <:+: l) : m.reverse <:+: l.reverse := by
  obtain ⟨u, v, huv⟩ := h
  exact ⟨v.reverse, u.reverse, by rw [← huv]; simp⟩

theorem idClass_not_space (c : Char) (h : idClass c = true) : pySpace c = false := by
  by_contra hb
  have hps : pySpace c = true := by revert hb; cases pySpace c <;> simp
  unfold pySpace at hps
  have hd := of_decide_eq_true hps
  rcases hd with h1 | h1 | h1 | h1 | h1 | h1 <;> rw [h1] at h <;> exact absurd h (by decide)

theorem tokenNoSpace {m : List Char} (ht : isChanIdToken m) :
    ∀ c ∈ m, pySpace c = false := by
  obtain ⟨body, rfl, _hlen, hall⟩ := ht
  intro c hc
  rcases List.mem_cons.mp hc with rfl | hc1
  · decide
  rcases List.mem_cons.mp hc1 with rfl | hc2
  · decide
  · exact idClass_not_space c (List.all_eq_true.mp hall c hc2)

theorem infix_dropWhile {p : Char → Bool} {m : List Char} (hne : m ≠ [])
    (hns : ∀ c ∈ m, p c = false) :
    ∀ {l : List Char}, m <:+: l → m <:+: l.dropWhile p := by
  intro l
  induction l with
  | nil => intro h; exact h.trans (by simp)
  | cons c t ih =>
    intro h
    rcases infixConsElim h with hp | hi
    · match m, hne, hns, hp with
      | a :: m', _, hns', hp' =>
        obtain ⟨v, hv⟩ := hp'
        have hx : a :: (m' ++ v) = c :: t := by simpa using hv
        have hac : a = c := by injection hx
        have hpc : p c = false := hac ▸ hns' a (by simp)
        rw [List.dropWhile_cons, hpc]
        simpa using h
    · have h2 := ih hi
      rw [List.dropWhile_cons]
      cases hpc : p c with
      | true => simpa using h2
      | false => simpa using infixCons c hi

theorem pyStrip_infix_self (l : List Char) : pyStrip l <:+: l := by
  obtain ⟨u, hu⟩ := List.dropWhile_suffix (l := (l.dropWhile pySpace).reverse) pySpace
  obtain ⟨w, hw⟩ := List.dropWhile_suffix (l := l) pySpace
  refine ⟨w, u.reverse, ?_⟩
  have h3 : ((l.dropWhile pySpace).reverse.dropWhile pySpace).reverse ++ u.reverse =
      l.dropWhile pySpace := by
    have := congrArg List.reverse hu
    simpa [List.reverse_append] using this
  rw [pyStrip, List.append_assoc, h3, hw]

theorem infix_pyStrip {m l : List Char} (hne : m ≠ [])
    (hns : ∀ c ∈ m, pySpace c = false) (h : m <:+: l) : m <:+: pyStrip l := by
  have h1 : m <:+: l.dropWhile pySpace := infix_dropWhile hne hns h
  have h2 : m.reverse <:+: (l.dropWhile pySpace).reverse := infixReverse h1
  have hne' : m.reverse ≠ [] := by simpa using hne
  have hns' : ∀ c ∈ m.reverse, pySpace c = false := fun c hc =>
    hns c (List.mem_reverse.mp hc)
  have h3 := infix_dropWhile hne' hns' h2
  have h4 := infixReverse h3
  simpa [pyStrip] using h4

theorem chanIdAt_sound (s m : List Char) (h : chanIdAt s = some m) :
    isChanIdToken m ∧ m <+: s := by
  unfold chanIdAt at h
  split at h
  · rename_i rest
    split at h
    · rename_i hcond
      obtain ⟨hlen, hall⟩ := hcond
      have hm : 'U' :: 'C' :: rest.take 22 = m := by injection h
      subst hm
      refine ⟨⟨rest.take 22, rfl, by simpa using hlen, by simpa using hall⟩, ?_⟩
      obtain ⟨t, ht⟩ := List.take_prefix 22 rest
      exact ⟨t, by simp [ht]⟩
    · exact absurd h (by simp)
  · exact absurd h (by simp)

theorem chanIdAt_complete (s m : List Char) (ht : isChanIdToken m) (hp : m <+: s) :
    chanIdAt s = some m := by
  obtain ⟨body, rfl, hlen, hall⟩ := ht
  obtain ⟨t, htl⟩ := hp
  have hs : s = 'U' :: 'C' :: (body ++ t) := by rw [← htl]; simp
  subst hs
  have htake : (body ++ t).take 22 = body := List.take_left' hlen
  rw [chanIdAt]
  rw [htake]
  rw [if_pos ⟨hlen, hall⟩]

theorem findChanId_sound (s m : List Char) (h : findChanId s = some m) :
    isChanIdToken m ∧ m <:+: s := by
  induction s with
  | nil => simp [findChanId] at h
  | cons c t ih =>
    rw [findChanId] at h
    cases hA : chanIdAt (c :: t) with
    | some m' =>
      rw [hA] at h
      have hm : m' = m := by injection h
      subst hm
      obtain ⟨ht, hp⟩ := chanIdAt_sound _ _ hA
      exact ⟨ht, prefixToInfix hp⟩
    | none =>
      rw [hA] at h
      obtain ⟨ht, hi⟩ := ih h
      exact ⟨ht, infixCons c hi⟩

theorem findChanId_isSome_of_infix {s m : List Char} (ht : isChanIdToken m)
    (hi : m <:+: s) : (findChanId s).isSome = true := by
  induction s with
  | nil =>
    exfalso
    obtain ⟨u, v, huv⟩ := hi
    obtain ⟨body, rfl, _, _⟩ := ht
    simp at huv
  | cons c t ih =>
    rw [findChanId]
    rcases infixConsElim hi with hp | hi'
    · rw [chanIdAt_complete _ _ ht hp]
      rfl
    · cases hA : chanIdAt (c :: t) with
      | some m' => rfl
      | none => exact ih hi'

/-- C6: for every input string containing a substring that matches
`UC[A-Za-z0-9_-]{22}`, the resolver returns RESOLVED whose channel id is the
leftmost such 24-character match of the trimmed input — itself a substring of
the input — and performs zero API calls. -/
theorem resolver_direct_channel_id (input : List Char) (client : YtApi)
    (h : ∃ m, isChanIdToken m ∧ m <:+: input) :
    ∃ m, findChanId (pyStrip input) = some m ∧
      (resolve_youtube_channel input client).1.status = .RESOLVED ∧
      (resolve_youtube_channel input client).1.youtube_channel_id = some m ∧
      isChanIdToken m ∧ m.length = 24 ∧ m <:+: input ∧
      (resolve_youtube_channel input client).2 = 0 := by
  obtain ⟨m0, ht0, hi0⟩ := h
  have hne : m0 ≠ [] := by
    obtain ⟨body, rfl, _, _⟩ := ht0
    simp
  have hi1 : m0 <:+: pyStrip input := infix_pyStrip hne (tokenNoSpace ht0) hi0
  have hsome := findChanId_isSome_of_infix ht0 hi1
  obtain ⟨m, hm⟩ := Option.isSome_iff_exists.mp hsome
  obtain ⟨htm, him⟩ := findChanId_sound _ _ hm
  have hres : resolve_youtube_channel input client =
      ({ status := .RESOLVED, youtube_channel_id := some m, input_str := pyStrip input,
         input_type := some "CHANNEL_ID".toList }, 0) := by
    unfold resolve_youtube_channel
    simp only [hm]
  have hlen : m.length = 24 := by
    obtain ⟨body, rfl, hbl, _⟩ := htm
    simp [hbl]
  exact ⟨m, hm, by rw [hres], by rw [hres], htm, hlen,
    him.trans (pyStrip_infix_self input), by rw [hres]⟩

def inputC6 : List Char := "https://www.youtube.com/channel/UC-lHJZR3Gqxm24_Vd_AJ5Yw".toList

def clientEmpty : YtApi := ⟨fun _ => .success [], fun _ => .success []⟩

/-- C6 witness: the end-to-end scenario input of the spec. -/
theorem resolver_direct_channel_id_witness :
    ∃ m, findChanId (pyStrip inputC6) = some m ∧
      (resolve_youtube_channel inputC6 clientEmpty).1.status = .RESOLVED ∧
      (resolve_youtube_channel inputC6 clientEmpty).1.youtube_channel_id = some m ∧
      isChanIdToken m ∧ m.length = 24 ∧ m <:+: inputC6 ∧
      (resolve_youtube_channel inputC6 clientEmpty).2 = 0 :=
  resolver_direct_channel_id inputC6 clientEmpty
    ⟨"UC-lHJZR3Gqxm24_Vd_AJ5Yw".toList,
     ⟨"-lHJZR3Gqxm24_Vd_AJ5Yw".toList, by decide, by decide, by decide⟩,
     "https://www.youtube.com/channel/".toList, [], by decide⟩

/-!
## C10: totality of the client getters and failure indistinguishability
-/

/-- The API-level failure cases: any `HttpError` (including quota 403s,
rate-limit 429s and server 5xx), any other exception, an empty `items`
response, or a first item with no `id`. On all of these the client getters
return `None`. -/
def apiFailure (o : ApiOutcome) : Prop :=
  (∃ s b, o = .httpError s b) ∨ (∃ msg, o = .pyError msg) ∨ o = .success [] ∨
    (∃ rest, o = .success (none :: rest))

theorem get_user_none (api : List Char → ApiOutcome) (q : List Char)
    (h : apiFailure (api q)) : get_channel_id_for_user api q = none := by
  unfold get_channel_id_for_user
  rcases h with ⟨s, b, he⟩ | ⟨msg, he⟩ | he | ⟨rest, he⟩ <;> rw [he]

theorem get_handle_none (api : List Char → ApiOutcome) (q : List Char)
    (h : apiFailure (api (stripAtSign q))) : get_channel_id_for_handle api q = none := by
  unfold get_channel_id_for_handle
  rcases h with ⟨s, b, he⟩ | ⟨msg, he⟩ | he | ⟨rest, he⟩ <;> rw [he]

/-- C10: (1) `get_channel_id_for_user` and `get_channel_id_for_handle` are
total — every API-level failure (any `HttpError`, any other exception, an
empty or id-less response) is absorbed into `none`, never propagated; (2)
consequently the resolver built on them cannot distinguish failure causes:
two clients that fail in arbitrarily different ways (e.g. a definitive
not-found versus a quota or network error) produce identical results on
every input; and (3) whenever the resolver made an API call against such a
failing client, the result status is FAILED. -/
theorem resolver_total_and_indistinguishable :
    (∀ (api : List Char → ApiOutcome), (∀ q, apiFailure (api q)) →
      ∀ q, get_channel_id_for_user api q = none ∧ get_channel_id_for_handle api q = none) ∧
    (∀ (input : List Char) (c1 c2 : YtApi),
      (∀ q, apiFailure (c1.user q)) → (∀ q, apiFailure (c1.handle q)) →
      (∀ q, apiFailure (c2.user q)) → (∀ q, apiFailure (c2.handle q)) →
      resolve_youtube_channel input c1 = resolve_youtube_channel input c2) ∧
    (∀ (input : List Char) (c : YtApi),
      (∀ q, apiFailure (c.user q)) → (∀ q, apiFailure (c.handle q)) →
      0 < (resolve_youtube_channel input c).2 →
      (resolve_youtube_channel input c).1.status = .FAILED) := by
  refine ⟨?_, ?_, ?_⟩
  · intro api hfail q
    exact ⟨get_user_none api q (hfail q), get_handle_none api q (hfail _)⟩
  · intro input c1 c2 h1u h1h h2u h2h
    unfold resolve_youtube_channel
    cases hfc : findChanId (pyStrip input) with
    | some m => simp only [hfc]
    | none =>
      simp only [hfc]
      cases hfu : findUser (pyStrip input) with
      | some u =>
        simp only [hfu, get_user_none c1.user u (h1u u), get_user_none c2.user u (h2u u)]
      | none =>
        simp only [hfu]
        cases hfh : findHandle (pyStrip input) with
        | some hd =>
          simp only [hfh, get_handle_none c1.handle hd (h1h _),
            get_handle_none c2.handle hd (h2h _)]
        | none =>
          simp only [hfh]
          cases hfcu : findCustom (pyStrip input) with
          | some n => simp only [hfcu]
          | none =>
            simp only [hfcu]
            cases hrh : rawHandleMatch (pyStrip input) with
            | some tok =>
              simp only [hrh]
              by_cases hcond : 70 < (pyStrip input).length ∨ ' ' ∈ pyStrip input
              · rw [if_pos hcond, if_pos hcond]
              · rw [if_neg hcond, if_neg hcond]
                simp only [get_handle_none c1.handle tok (h1h _),
                  get_handle_none c2.handle tok (h2h _)]
            | none => simp only [hrh]
  · intro input c hu hh hpos
    unfold resolve_youtube_channel at hpos ⊢
    cases hfc : findChanId (pyStrip input) with
    | some m =>
      simp only [hfc] at hpos
      exact absurd hpos (lt_irrefl 0)
    | none =>
      simp only [hfc] at hpos ⊢
      cases hfu : findUser (pyStrip input) with
      | some u =>
        simp only [hfu, get_user_none c.user u (hu u)] at hpos ⊢
      | none =>
        simp only [hfu] at hpos ⊢
        cases hfh : findHandle (pyStrip input) with
        | some hd =>
          simp only [hfh, get_handle_none c.handle hd (hh _)] at hpos ⊢
        | none =>
          simp only [hfh] at hpos ⊢
          cases hfcu : findCustom (pyStrip input) with
          | some n =>
            simp only [hfcu] at hpos
            exact absurd hpos (lt_irrefl 0)
          | none =>
            simp only [hfcu] at hpos ⊢
            cases hrh : rawHandleMatch (pyStrip input) with
            | some tok =>
              simp only [hrh] at hpos ⊢
              by_cases hcond : 70 < (pyStrip input).length ∨ ' ' ∈ pyStrip input
              · rw [if_pos hcond] at hpos
                simp at hpos
              · rw [if_neg hcond] at hpos ⊢
                simp only [get_handle_none c.handle tok (hh _)] at hpos ⊢
            | none =>
              simp only [hrh] at hpos
              exact absurd hpos (lt_irrefl 0)

def inputC10 : List Char := "https://www.youtube.com/user/foo".toList

/-- A client whose every call fails with a quota 403. -/
def clientQuota : YtApi :=
  ⟨fun _ => .httpError 403 "quotaExceeded".toList,
   fun _ => .httpError 403 "quotaExceeded".toList⟩

/-- C10 witness: on a `/user/` URL, a not-found client (empty `items`) and a
quota-failing client yield literally the same FAILED result, and the call was
made (one API call, status FAILED). -/
theorem resolver_total_and_indistinguishable_witness :
    resolve_youtube_channel inputC10 clientEmpty =
      resolve_youtube_channel inputC10 clientQuota ∧
    0 < (resolve_youtube_channel inputC10 clientEmpty).2 ∧
    (resolve_youtube_channel inputC10 clientEmpty).1.status = .FAILED := by
  have hE : ∀ q, apiFailure (clientEmpty.user q) := fun q => Or.inr (Or.inr (Or.inl rfl))
  have hEh : ∀ q, apiFailure (clientEmpty.handle q) := fun q => Or.inr (Or.inr (Or.inl rfl))
  have hQ : ∀ q, apiFailure (clientQuota.user q) :=
    fun q => Or.inl ⟨403, "quotaExceeded".toList, rfl⟩
  have hQh : ∀ q, apiFailure (clientQuota.handle q) :=
    fun q => Or.inl ⟨403, "quotaExceeded".toList, rfl⟩
  refine ⟨resolver_total_and_indistinguishable.2.1 inputC10 clientEmpty clientQuota
      hE hEh hQ hQh, by decide,
    resolver_total_and_indistinguishable.2.2 inputC10 clientEmpty hE hEh (by decide)⟩
